import Mathlib

/-!
# Verification development for `code_examples`

Shallow embedding of

* `my_view_model.h` / `my_view_model.cpp`: the class `MyViewModel` with its
  `counter` property, the `counterChanged` signal and the slots `increment`
  and `reset`;
* `modern_cpp_features.cpp`: the mutable by-value lambda `add` of
  `lambda_examples`, the class template `RecursiveDepth` and the constexpr
  function `factorial`.

A C++ `int` is a 32-bit two's-complement integer, embedded as an `Int`
together with the explicit reduction `wrapInt32`.  Signed overflow is
undefined behaviour in the standard; where the source does `int`
arithmetic at run time the embedding reduces the exact result modulo `2^32`
into the `int` range, which is what the usual targets do.  Every statement
below that speaks about an exact sum or product also establishes that the
exact value lies in the `int` range, so it does not depend on that choice.
-/

namespace CodeExamples

/-! ## 32-bit `int` -/

/-- Smallest value of a C++ `int`. -/
def INT_MIN : Int := -2147483648

/-- Largest value of a C++ `int`. -/
def INT_MAX : Int := 2147483647

/-- The value is representable as a C++ `int`. -/
def IsInt32 (v : Int) : Prop := INT_MIN ≤ v ∧ v ≤ INT_MAX

instance (v : Int) : Decidable (IsInt32 v) :=
  inferInstanceAs (Decidable (INT_MIN ≤ v ∧ v ≤ INT_MAX))

/-- Reduction of an exact integer result into the 32-bit two's-complement range. -/
def wrapInt32 (v : Int) : Int := (v + 2147483648) % 4294967296 - 2147483648

/-! ## `MyViewModel` (my_view_model.h, my_view_model.cpp) -/

/-- Signals of `MyViewModel`; `emit counterChanged(n)` is recorded as
`Signal.counterChanged n`. -/
inductive Signal where
  | counterChanged (newValue : Int)
  deriving DecidableEq

/-- The data members of `MyViewModel`: `int m_counter`. -/
structure MyViewModel where
  m_counter : Int
  deriving DecidableEq

/-- Effect of one member-function call: the returned value, the object
afterwards and the signals emitted during the call, in order. -/
structure Call (α : Type) where
  ret : α
  self : MyViewModel
  emitted : List Signal
  deriving DecidableEq

namespace MyViewModel

/-- Constructor `MyViewModel::MyViewModel(QObject* parent) : QObject(parent), m_counter(0) {}` -/
def new : MyViewModel := { m_counter := 0 }

/-- Accessor `int MyViewModel::counter() const { return m_counter; }` -/
def counter (self : MyViewModel) : Call Int :=
  { ret := self.m_counter, self := self, emitted := [] }

/-- Mutator `void MyViewModel::setCounter(int value)`:
```
if (m_counter != value) {
    m_counter = value;
    emit counterChanged(m_counter);
}
``` -/
def setCounter (self : MyViewModel) (value : Int) : Call Unit :=
  if self.m_counter ≠ value then
    let self1 : MyViewModel := { self with m_counter := value }
    { ret := (), self := self1, emitted := [Signal.counterChanged self1.m_counter] }
  else
    { ret := (), self := self, emitted := [] }

/-- Slot `void MyViewModel::increment() { setCounter(m_counter + 1); }` -/
def increment (self : MyViewModel) : Call Unit :=
  self.setCounter (wrapInt32 (self.m_counter + 1))

/-- Slot `void MyViewModel::reset() { setCounter(0); }` -/
def reset (self : MyViewModel) : Call Unit :=
  self.setCounter 0

end MyViewModel

/-! ## `lambda_examples` (modern_cpp_features.cpp) -/

/-- Closure object of `[x](int y) mutable { return x += y; }`: its one data
member is the by-value copy of the captured `x`. -/
structure AddClosure where
  x : Int
  deriving DecidableEq

/-- The call operator of the closure, `(int y) mutable { return x += y; }`:
the copy is updated to the `int` sum and that sum is returned. -/
def AddClosure.call (cl : AddClosure) (y : Int) : Int × AddClosure :=
  let x1 := wrapInt32 (cl.x + y)
  (x1, { x := x1 })

/-- The locals of `lambda_examples` that the closure is concerned with: the
variable `x` of the function and the closure object `add`. -/
structure LambdaFrame where
  x : Int
  add : AddClosure
  deriving DecidableEq

/-- Entry of `lambda_examples`: `int x = 10; auto add = [x](int y) mutable { return x += y; };` -/
def lambda_examples_enter : LambdaFrame :=
  let x : Int := 10
  { x := x, add := { x := x } }

/-- One evaluation of `add(y)` inside `lambda_examples`: the value of the
call and the locals afterwards. -/
def LambdaFrame.callAdd (f : LambdaFrame) (y : Int) : Int × LambdaFrame :=
  let r := f.add.call y
  (r.1, { f with add := r.2 })

/-- The locals after evaluating `add(y)` for each `y` of a list in turn. -/
def LambdaFrame.callAddAll (f : LambdaFrame) : List Int → LambdaFrame
  | [] => f
  | y :: ys => (f.callAdd y).2.callAddAll ys

/-- The number printed by `std::cout << "Lambda add: " << add(5)`. -/
def lambda_examples_printed : Int := (lambda_examples_enter.callAdd 5).1

/-! ## `RecursiveDepth` (modern_cpp_features.cpp) -/

/-- Integer arithmetic inside a constant expression: a result outside the
`int` range is not a constant expression, so the program is rejected. -/
def constInt32 (v : Int) : Option Int := if IsInt32 v then some v else none

/-- Instantiation of `RecursiveDepth<N>` under an instantiation depth limit
(`-ftemplate-depth`).  The result is `none` when the compiler rejects the
program, and otherwise `::value` together with the template arguments of the
specialisations that were required on the way, outermost first.
```
template<int N> struct RecursiveDepth {
    static constexpr int value = RecursiveDepth<N - 1>::value + 1; };
template<> struct RecursiveDepth<0> { static constexpr int value = 0; };
``` -/
def RecursiveDepth : Nat → Int → Option (Int × List Int)
  | 0, _ => none
  | depth + 1, N =>
    if N = 0 then some (0, [])
    else
      match constInt32 (N - 1) with
      | none => none
      | some N1 =>
        match RecursiveDepth depth N1 with
        | none => none
        | some (v, required) =>
          match constInt32 (v + 1) with
          | none => none
          | some value => some (value, N1 :: required)

/-- Default instantiation depth limit named in the source comments ("maximum of 900"). -/
def templateDepthLimit : Nat := 900

/-- The value printed by `template_depth_example`: `RecursiveDepth<10>::value`. -/
def template_depth_example (depth : Nat) : Option Int :=
  (RecursiveDepth depth 10).map Prod.fst

/-! ## `factorial` (modern_cpp_features.cpp) -/

/-- Function `constexpr int factorial(int n) { return n <= 1 ? 1 : n * factorial(n - 1); }`
with a bound on the call depth; `none` means the bound was reached before the
call returned.  `n - 1` is only computed for `n > 1`. -/
def factorial : Nat → Int → Option Int
  | 0, _ => none
  | fuel + 1, n =>
    if n ≤ 1 then some 1
    else
      match factorial fuel (n - 1) with
      | none => none
      | some r => some (wrapInt32 (n * r))

/-- Default limit on the depth of constexpr calls named in the source comments ("maximum depth of 512"). -/
def constexprDepthLimit : Nat := 512

/-- Value of `constexpr int val = factorial(5);` in `constexpr_example`. -/
def constexpr_example (fuel : Nat) : Option Int := factorial fuel 5

/-- Value of `constexpr int small_factorial = factorial(10);` in `constexpr_depth_example`. -/
def constexpr_depth_example (fuel : Nat) : Option Int := factorial fuel 10

/-! ## Theorems -/

/-- A value in the `int` range is left alone by `wrapInt32`. -/
theorem wrapInt32_of_isInt32 (v : Int) (h : IsInt32 v) : wrapInt32 v = v := by
  unfold IsInt32 INT_MIN INT_MAX at h
  unfold wrapInt32
  omega

/-- Every result of `wrapInt32` is in the `int` range. -/
theorem isInt32_wrapInt32 (v : Int) : IsInt32 (wrapInt32 v) := by
  unfold IsInt32 INT_MIN INT_MAX wrapInt32
  omega

/-- Inside a constant expression a value in the `int` range is accepted. -/
theorem constInt32_of_isInt32 (v : Int) (h : IsInt32 v) : constInt32 v = some v := by
  unfold constInt32
  rw [if_pos h]

/-- C1: for a view model with stored counter `c` and a value `v ≠ c`,
`setCounter(v)` leaves the stored counter equal to `v` and emits exactly one
`counterChanged` notification, whose payload is `v`. -/
theorem setCounter_changed (s : MyViewModel) (v : Int) (h : v ≠ s.m_counter) :
    (s.setCounter v).self.m_counter = v ∧
      (s.setCounter v).emitted = [Signal.counterChanged v] := by
  have h1 : s.m_counter ≠ v := fun e => h e.symm
  simp [MyViewModel.setCounter, h1]

/-- Witness of C1: stored counter `3`, new value `7`. -/
theorem setCounter_changed_witness :
    (7 : Int) ≠ (MyViewModel.mk 3).m_counter ∧
      ((MyViewModel.mk 3).setCounter 7).self.m_counter = 7 ∧
      ((MyViewModel.mk 3).setCounter 7).emitted = [Signal.counterChanged 7] :=
  ⟨by decide, setCounter_changed (MyViewModel.mk 3) 7 (by decide)⟩

/-- C2: `setCounter(c)` on a view model whose stored counter is `c` leaves the
object unchanged and emits nothing; and `setCounter(v)` emits a notification
if and only if `v` differs from the stored counter. -/
theorem setCounter_same :
    (∀ s : MyViewModel,
        (s.setCounter s.m_counter).self = s ∧ (s.setCounter s.m_counter).emitted = []) ∧
      (∀ (s : MyViewModel) (v : Int),
        (s.setCounter v).emitted ≠ [] ↔ v ≠ s.m_counter) := by
  refine ⟨fun s => by simp [MyViewModel.setCounter], fun s v => ?_⟩
  by_cases h : s.m_counter = v
  · simp [MyViewModel.setCounter, h]
  · have h1 : ¬ v = s.m_counter := fun e => h e.symm
    simp [MyViewModel.setCounter, h, h1]

/-- C3: after `setCounter(v)` the accessor `counter()` returns `v`, whether or
not `v` equalled the previous value; `counter()` itself leaves the object as
it was and emits nothing. -/
theorem counter_after_setCounter (s : MyViewModel) (v : Int) :
    (s.setCounter v).self.counter.ret = v ∧
      s.counter.self = s ∧ s.counter.emitted = [] ∧ s.counter.ret = s.m_counter := by
  refine ⟨?_, rfl, rfl, rfl⟩
  by_cases h : s.m_counter = v
  · simp [MyViewModel.setCounter, MyViewModel.counter, h]
  · simp [MyViewModel.setCounter, MyViewModel.counter, h]

/-- C4: `reset()` leaves the stored counter equal to `0`; it emits exactly one
`counterChanged(0)` when the stored counter was not `0` and nothing when it
was `0`. -/
theorem reset_spec (s : MyViewModel) :
    s.reset.self.m_counter = 0 ∧
      s.reset.emitted = (if s.m_counter ≠ 0 then [Signal.counterChanged 0] else []) := by
  by_cases h : s.m_counter = 0
  · simp [MyViewModel.reset, MyViewModel.setCounter, h]
  · simp [MyViewModel.reset, MyViewModel.setCounter, h]

/-- C5: for a view model whose stored counter `c` is an `int` with
`c < INT_MAX`, `increment()` leaves the stored counter equal to `c + 1` and
emits exactly one `counterChanged` notification with payload `c + 1`. -/
theorem increment_spec (s : MyViewModel) (hint : IsInt32 s.m_counter)
    (hhi : s.m_counter < INT_MAX) :
    s.increment.self.m_counter = s.m_counter + 1 ∧
      s.increment.emitted = [Signal.counterChanged (s.m_counter + 1)] := by
  have hw : wrapInt32 (s.m_counter + 1) = s.m_counter + 1 := by
    apply wrapInt32_of_isInt32
    unfold IsInt32 at *
    unfold INT_MIN at *
    unfold INT_MAX at *
    omega
  simp [MyViewModel.increment, MyViewModel.setCounter, hw]

/-- Witness of C5 at the largest admissible counter, `INT_MAX - 1`. -/
theorem increment_spec_witness :
    IsInt32 (MyViewModel.mk 2147483646).m_counter ∧
      (MyViewModel.mk 2147483646).m_counter < INT_MAX ∧
      (MyViewModel.mk 2147483646).increment.self.m_counter = 2147483646 + 1 ∧
      (MyViewModel.mk 2147483646).increment.emitted =
        [Signal.counterChanged (2147483646 + 1)] :=
  ⟨by decide, by decide, increment_spec (MyViewModel.mk 2147483646) (by decide) (by decide)⟩

/-- The stored counter stays an `int`: the constructor stores `0`, `setCounter`
stores nothing but its `int` argument, and `increment` and `reset` go through
`setCounter`. -/
theorem counter_isInt32 :
    IsInt32 MyViewModel.new.m_counter ∧
      (∀ (s : MyViewModel) (v : Int), IsInt32 s.m_counter → IsInt32 v →
        IsInt32 (s.setCounter v).self.m_counter) ∧
      (∀ s : MyViewModel, IsInt32 s.m_counter → IsInt32 s.increment.self.m_counter) ∧
      (∀ s : MyViewModel, IsInt32 s.m_counter → IsInt32 s.reset.self.m_counter) := by
  have hset : ∀ (s : MyViewModel) (v : Int), IsInt32 s.m_counter → IsInt32 v →
      IsInt32 (s.setCounter v).self.m_counter := by
    intro s v hs hv
    by_cases h : s.m_counter = v
    · simpa [MyViewModel.setCounter, h] using hv
    · simpa [MyViewModel.setCounter, h] using hv
  exact ⟨by decide, hset, fun s hs => hset s _ hs (isInt32_wrapInt32 _),
    fun s hs => hset s 0 hs (by decide)⟩

/-! ### `lambda_examples` -/

/-- A call of `add` never touches the variable `x` of `lambda_examples`. -/
theorem callAdd_outer (f : LambdaFrame) (y : Int) : (f.callAdd y).2.x = f.x := rfl

/-- Any sequence of calls of `add` leaves the variable `x` of `lambda_examples` alone. -/
theorem callAddAll_outer (ys : List Int) (f : LambdaFrame) : (f.callAddAll ys).x = f.x := by
  induction ys generalizing f with
  | nil => rfl
  | cons y ys ih =>
    show ((f.callAdd y).2.callAddAll ys).x = f.x
    rw [ih, callAdd_outer]

/-- C6, as the claim states it, fails: after `add(2147483637)`, which does
not overflow and leaves the closure copy at `2147483647`, the call `add(1)`
does not return closure copy + 1 (an `int` cannot hold `2147483648`). -/
theorem add_call_overflow_counterexample :
    (lambda_examples_enter.callAdd 2147483637).1 = 10 + 2147483637 ∧
      (lambda_examples_enter.callAdd 2147483637).2.add.x = 2147483647 ∧
      ¬ (((lambda_examples_enter.callAdd 2147483637).2.callAdd 1).1 =
          (lambda_examples_enter.callAdd 2147483637).2.add.x + 1) := by
  decide

/-- C6 (amended): the closure `add` holds its own copy of `x`, initially `10`.
Every call `add(y)` stores the value it returns back into the closure copy
and leaves the outer `x` unchanged; when closure copy + `y` is in the `int`
range, the returned value is that sum.  Any sequence of calls leaves the
outer `x` at `10`; the first call `add(5)` returns `15` and a second call
`add(5)` would return `20`, with the outer `x` still `10`. -/
theorem add_call_spec :
    (lambda_examples_enter.x = 10 ∧ lambda_examples_enter.add.x = 10) ∧
      (∀ (f : LambdaFrame) (y : Int),
        (f.callAdd y).2.add.x = (f.callAdd y).1 ∧ (f.callAdd y).2.x = f.x) ∧
      (∀ (f : LambdaFrame) (y : Int), IsInt32 (f.add.x + y) →
        (f.callAdd y).1 = f.add.x + y ∧ (f.callAdd y).2.add.x = f.add.x + y) ∧
      (∀ ys : List Int, (lambda_examples_enter.callAddAll ys).x = 10) ∧
      lambda_examples_printed = 15 ∧
      (lambda_examples_enter.callAdd 5).1 = 15 ∧
      (lambda_examples_enter.callAdd 5).2.x = 10 ∧
      ((lambda_examples_enter.callAdd 5).2.callAdd 5).1 = 20 ∧
      ((lambda_examples_enter.callAdd 5).2.callAdd 5).2.x = 10 := by
  refine ⟨⟨rfl, rfl⟩, fun f y => ⟨rfl, rfl⟩, fun f y h => ?_, fun ys => ?_,
    by decide, by decide, by decide, by decide, by decide⟩
  · have hw := wrapInt32_of_isInt32 _ h
    exact ⟨hw, hw⟩
  · rw [callAddAll_outer]
    rfl

/-- Witness of C6 (amended): closure copy `15`, argument `5`. -/
theorem add_call_spec_witness :
    IsInt32 ((LambdaFrame.mk 10 (AddClosure.mk 15)).add.x + 5) ∧
      ((LambdaFrame.mk 10 (AddClosure.mk 15)).callAdd 5).1 = 15 + 5 ∧
      ((LambdaFrame.mk 10 (AddClosure.mk 15)).callAdd 5).2.add.x = 15 + 5 :=
  ⟨by decide, add_call_spec.2.2.1 (LambdaFrame.mk 10 (AddClosure.mk 15)) 5 (by decide)⟩

/-! ### `RecursiveDepth` -/

/-- One level of instantiation of the primary template, or the explicit
specialisation for `0`. -/
theorem RecursiveDepth_succ (depth : Nat) (N : Int) :
    RecursiveDepth (depth + 1) N =
      if N = 0 then some (0, [])
      else
        match constInt32 (N - 1) with
        | none => none
        | some N1 =>
          match RecursiveDepth depth N1 with
          | none => none
          | some (v, required) =>
            match constInt32 (v + 1) with
            | none => none
            | some value => some (value, N1 :: required) := rfl



/-- The primary template at `N ≠ 0`, from the instantiation of `RecursiveDepth<N - 1>`. -/
theorem RecursiveDepth_step (N : Int) (d : Nat) (l : List Int) (hne : ¬ (N = 0))
    (hc1 : constInt32 (N - 1) = some (N - 1)) (hc2 : constInt32 ((N - 1) + 1) = some N)
    (hrec : RecursiveDepth d (N - 1) = some (N - 1, l)) :
    RecursiveDepth (d + 1) N = some (N, (N - 1) :: l) := by
  rw [RecursiveDepth_succ, if_neg hne, hc1]
  simp only []
  rw [hrec]
  simp only []
  rw [hc2]

/-- The template arguments `N - 1, …, 0` required below `RecursiveDepth<N>`. -/
theorem requiredBelow_pos (N : Int) (h : 0 < N) :
    (List.range N.toNat).reverse.map Int.ofNat =
      (N - 1) :: (List.range (N - 1).toNat).reverse.map Int.ofNat := by
  obtain ⟨m, hm⟩ : ∃ m : Nat, N.toNat = m + 1 := ⟨N.toNat - 1, by omega⟩
  have h1 : (N - 1).toNat = m := by omega
  have h2 : Int.ofNat m = N - 1 := by
    show (m : Int) = N - 1
    omega
  rw [hm, h1, ← h2]
  simp [List.range_succ]

/-- Instantiating `RecursiveDepth<N>` for `N ≥ 0` in the `int` range succeeds as
soon as the depth limit exceeds `N`. -/
theorem RecursiveDepth_int (depth : Nat) :
    ∀ N : Int, 0 ≤ N → N ≤ INT_MAX → N < depth →
      RecursiveDepth depth N = some (N, (List.range N.toNat).reverse.map Int.ofNat) := by
  induction depth with
  | zero => intro N h0 _ hd; exact absurd hd (by omega)
  | succ d ih =>
    intro N h0 hmax hd
    by_cases hN : N = 0
    · subst hN
      rfl
    · have hr : IsInt32 (N - 1) := by
        unfold IsInt32 INT_MIN
        unfold INT_MAX at *
        omega
      have hr2 : IsInt32 N := by
        unfold IsInt32 INT_MIN
        unfold INT_MAX at *
        omega
      have hc2 : constInt32 (N - 1 + 1) = some N := by
        have e : N - 1 + 1 = N := by omega
        rw [e]
        exact constInt32_of_isInt32 N hr2
      rw [requiredBelow_pos N (by omega)]
      exact RecursiveDepth_step N d _ hN (constInt32_of_isInt32 _ hr) hc2
        (ih (N - 1) (by omega) hr.2 (by push_cast at hd; omega))

/-- With a depth limit of at most `N`, `RecursiveDepth<N>` is rejected. -/
theorem RecursiveDepth_depth_exceeded (depth : Nat) :
    ∀ N : Int, (depth : Int) ≤ N → RecursiveDepth depth N = none := by
  induction depth with
  | zero => intro N _; rfl
  | succ d ih =>
    intro N h
    have hne : ¬ (N = 0) := by omega
    unfold RecursiveDepth
    rw [if_neg hne]
    cases hc : constInt32 (N - 1) with
    | none => rfl
    | some N1 =>
      have hN1 : N1 = N - 1 := by
        unfold constInt32 at hc
        split at hc
        · exact (Option.some.inj hc).symm
        · exact absurd hc (by simp)
      have := ih N1 (by omega)
      simp only [this]

/-- C8: for every `int` `N ≥ 0` and every depth limit above `N`, the
instantiation of `RecursiveDepth<N>` reaches the base case `RecursiveDepth<0>`
after exactly `N` recursive instantiations (`N - 1, …, 0`) and
`RecursiveDepth<N>::value = N`; `RecursiveDepth<10>::value = 10`, as printed
by `template_depth_example`. -/
theorem RecursiveDepth_spec :
    (∀ (N : Int) (depth : Nat), 0 ≤ N → N ≤ INT_MAX → N.toNat < depth →
      ∃ required : List Int,
        RecursiveDepth depth N = some (N, required) ∧
          required.length = N.toNat ∧
          required = (List.range N.toNat).reverse.map Int.ofNat ∧
          (0 < N → required.getLast? = some 0)) ∧
      RecursiveDepth templateDepthLimit 10 = some (10, [9, 8, 7, 6, 5, 4, 3, 2, 1, 0]) ∧
      template_depth_example templateDepthLimit = some 10 := by
  refine ⟨fun N depth h0 hmax hd => ?_, by decide, by decide⟩
  refine ⟨_, RecursiveDepth_int depth N h0 hmax (by omega), by simp, rfl, fun hpos => ?_⟩
  obtain ⟨m, hm⟩ : ∃ m : Nat, N.toNat = m + 1 := ⟨N.toNat - 1, by omega⟩
  rw [hm]
  simp [List.range_succ_eq_map]

/-- Witness of C8: `RecursiveDepth<3>` under depth limit `4`. -/
theorem RecursiveDepth_spec_witness :
    (0 : Int) ≤ 3 ∧ (3 : Int) ≤ INT_MAX ∧ (3 : Int).toNat < 4 ∧
      RecursiveDepth 4 3 = some (3, [2, 1, 0]) := by
  obtain ⟨required, h, _, hreq, _⟩ :=
    RecursiveDepth_spec.1 3 4 (by decide) (by decide) (by decide)
  refine ⟨by decide, by decide, by decide, ?_⟩
  rw [h, hreq]
  decide

/-! ### `factorial` -/

/-- One call of `factorial`. -/
theorem factorial_succ (fuel : Nat) (n : Int) :
    factorial (fuel + 1) n =
      if n ≤ 1 then some 1
      else
        match factorial fuel (n - 1) with
        | none => none
        | some r => some (wrapInt32 (n * r)) := rfl

/-- For `n ≤ 1` the call returns `1` at once. -/
theorem factorial_base (fuel : Nat) (n : Int) (h : n ≤ 1) : factorial (fuel + 1) n = some 1 := by
  rw [factorial_succ, if_pos h]

/-- For `n > 1` the call multiplies `n` with the result of `factorial(n - 1)`. -/
theorem factorial_step (fuel : Nat) (n r : Int) (h : ¬ n ≤ 1)
    (hrec : factorial fuel (n - 1) = some r) :
    factorial (fuel + 1) n = some (wrapInt32 (n * r)) := by
  rw [factorial_succ, if_neg h, hrec]

/-- A call that returns within some depth returns the same value within any larger depth. -/
theorem factorial_mono (fuel : Nat) :
    ∀ (n r : Int) (fuel1 : Nat), fuel ≤ fuel1 → factorial fuel n = some r →
      factorial fuel1 n = some r := by
  induction fuel with
  | zero => intro n r fuel1 _ h; exact absurd h (by simp [factorial])
  | succ f ih =>
    intro n r fuel1 hle h
    obtain ⟨g, rfl⟩ : ∃ g, fuel1 = g + 1 := ⟨fuel1 - 1, by omega⟩
    by_cases hn : n ≤ 1
    · rw [factorial_base f n hn] at h
      rw [factorial_base g n hn, h]
    · rw [factorial_succ, if_neg hn] at h
      cases hrec : factorial f (n - 1) with
      | none => rw [hrec] at h; exact absurd h (by simp)
      | some r1 =>
        rw [hrec] at h
        rw [factorial_step g n r1 hn (ih (n - 1) r1 g (by omega) hrec)]
        exact h

/-- Termination: `factorial(n)` returns an `int` within depth `max(n, 1)`. -/
theorem factorial_terminates (fuel : Nat) :
    ∀ n : Int, 0 < fuel → n ≤ fuel → ∃ r : Int, factorial fuel n = some r ∧ IsInt32 r := by
  induction fuel with
  | zero =>
    intro n h
    exact absurd h (by omega)
  | succ f ih =>
    intro n _ h
    by_cases hn : n ≤ 1
    · exact ⟨1, factorial_base f n hn, by decide⟩
    · obtain ⟨r, hr, _⟩ := ih (n - 1) (by push_cast at h; omega) (by push_cast at h; omega)
      exact ⟨wrapInt32 (n * r), factorial_step f n r hn hr, isInt32_wrapInt32 _⟩

/-- The factorials up to `12!` fit in an `int`. -/
theorem isInt32_factorial_le_twelve (m : Nat) (h : m ≤ 12) : IsInt32 (m.factorial : Int) := by
  have h12 : m.factorial ≤ 479001600 := by
    have := Nat.factorial_le h
    have e : Nat.factorial 12 = 479001600 := by decide
    omega
  unfold IsInt32 INT_MIN INT_MAX
  omega

/-- On `1 ≤ n ≤ 12` a call that returns yields `n!`. -/
theorem factorial_value (fuel : Nat) :
    ∀ (n r : Int), 1 ≤ n → n ≤ 12 → factorial fuel n = some r →
      r = (n.toNat.factorial : Int) := by
  induction fuel with
  | zero => intro n r _ _ h; exact absurd h (by simp [factorial])
  | succ f ih =>
    intro n r h1 h12 h
    by_cases hn : n ≤ 1
    · rw [factorial_base f n hn] at h
      have e : n = 1 := by omega
      subst e
      exact (Option.some.inj h).symm
    · rw [factorial_succ, if_neg hn] at h
      cases hrec : factorial f (n - 1) with
      | none => rw [hrec] at h; exact absurd h (by simp)
      | some r1 =>
        rw [hrec] at h
        simp only [] at h
        have hr1 := ih (n - 1) r1 (by omega) (by omega) hrec
        obtain ⟨m, hm⟩ : ∃ m : Nat, n.toNat = m + 1 := ⟨n.toNat - 1, by omega⟩
        have hm1 : (n - 1).toNat = m := by omega
        have hn1 : n = ((m + 1 : Nat) : Int) := by omega
        have hprod : n * r1 = (n.toNat.factorial : Int) := by
          rw [hr1, hm1, hm, Nat.factorial_succ, hn1]
          push_cast
          ring
        have hfit : IsInt32 (n.toNat.factorial : Int) :=
          isInt32_factorial_le_twelve n.toNat (by omega)
        rw [hprod, wrapInt32_of_isInt32 _ hfit] at h
        exact (Option.some.inj h).symm

/-- C7: `factorial` terminates for every `n` (within call depth `max(n, 1)`,
with an `int` result); `factorial(n) = 1` for every `n ≤ 1`; for
`1 ≤ n ≤ 12`, `factorial(n) = n!` and each product `k * factorial(k - 1)`
formed on the way (`1 < k ≤ n`) lies in the `int` range; `factorial(5) = 120`
and `factorial(10) = 3628800`, the values of `constexpr_example` and
`constexpr_depth_example`. -/
theorem factorial_spec :
    (∀ (n : Int) (fuel : Nat), 0 < fuel → n ≤ fuel →
      ∃ r : Int, factorial fuel n = some r ∧ IsInt32 r) ∧
    (∀ (n : Int) (fuel : Nat), n ≤ 1 → 0 < fuel → factorial fuel n = some 1) ∧
    (∀ (n : Int) (fuel : Nat), 1 ≤ n → n ≤ 12 → n ≤ fuel →
      factorial fuel n = some (n.toNat.factorial : Int)) ∧
    (∀ (n k r : Int) (fuel : Nat), 1 ≤ n → n ≤ 12 → 1 < k → k ≤ n →
      factorial fuel (k - 1) = some r → INT_MIN ≤ k * r ∧ k * r ≤ INT_MAX) ∧
    factorial constexprDepthLimit 5 = some 120 ∧
    factorial constexprDepthLimit 10 = some 3628800 ∧
    constexpr_example constexprDepthLimit = some 120 ∧
    constexpr_depth_example constexprDepthLimit = some 3628800 := by
  refine ⟨fun n fuel h0 h => factorial_terminates fuel n h0 h, fun n fuel h h0 => ?_,
    fun n fuel h1 h12 hf => ?_, fun n k r fuel h1 h12 hk hkn hrec => ?_,
    by decide, by decide, by decide, by decide⟩
  · obtain ⟨f, rfl⟩ : ∃ f, fuel = f + 1 := ⟨fuel - 1, by omega⟩
    exact factorial_base f n h
  · obtain ⟨r, hr, _⟩ := factorial_terminates fuel n (by omega) hf
    rw [hr, factorial_value fuel n r h1 h12 hr]
  · have hr := factorial_value fuel (k - 1) r (by omega) (by omega) hrec
    obtain ⟨m, hm⟩ : ∃ m : Nat, k.toNat = m + 1 := ⟨k.toNat - 1, by omega⟩
    have hm1 : (k - 1).toNat = m := by omega
    have hk1 : k = ((m + 1 : Nat) : Int) := by omega
    have hprod : k * r = (k.toNat.factorial : Int) := by
      rw [hr, hm1, hm, Nat.factorial_succ, hk1]
      push_cast
      ring
    rw [hprod]
    exact isInt32_factorial_le_twelve k.toNat (by omega)

/-- Witness of C7: `factorial(-3)`, `factorial(12)` and the last product `12 * 11!`. -/
theorem factorial_spec_witness :
    factorial 1 (-3) = some 1 ∧
      factorial 12 12 = some ((12 : Int).toNat.factorial : Int) ∧
      (INT_MIN ≤ 12 * 39916800 ∧ 12 * 39916800 ≤ INT_MAX) :=
  ⟨factorial_spec.2.1 (-3) 1 (by decide) (by decide),
    factorial_spec.2.2.1 12 12 (by decide) (by decide) (by decide),
    factorial_spec.2.2.2.1 12 12 39916800 11 (by decide) (by decide) (by decide) (by decide)
      (by decide)⟩

end CodeExamples
